import Mathlib

/-!
Verification development for the hostel pass-request portal
(`src/lib/utils.ts`, `src/components/WardenDashboard.tsx`,
`src/components/HODDashboard.tsx`).

Timestamps are modelled as milliseconds since the epoch (`Int`), matching
`Date.now()` / `new Date(iso).getTime()`.  An ISO-string date field that can
be missing or empty in the JSON record is modelled as `Option Int`
(`none` = the field is absent or the empty string; `some t` = a parseable
timestamp).  The remote database is treated as the spec directs: an opaque
ordered key-value document tree with get/push/update/remove primitives; no
SDK-level path validation is modelled.
-/

namespace PassPortal

/-- Request lifecycle status, from the `status` union type used across
`utils.ts` and the dashboards. -/
inductive Status where
  | pending
  | hod_approved
  | warden_approved
  | declined
deriving DecidableEq, Repr

/-- Request type: `"outing" | "home_visit"`. -/
inductive ReqType where
  | outing
  | home_visit
deriving DecidableEq, Repr

/-- The `{username, name, block}` object returned by `getAssignedWardenByBlock`
and stored in `assignedWarden` / `wardenApprovedBy`. -/
structure WardenRef where
  username : String
  name : String
  block : String
deriving DecidableEq, Repr

/-- The `{username, name, department}` object returned by
`getAssignedHodByDepartment` and stored in `assignedHod` / `hodApprovedBy`. -/
structure HodRef where
  username : String
  name : String
  department : String
deriving DecidableEq, Repr

/-- A warden directory record as read from the `warden` tree.  A missing
`name` field is modelled as `""` (both are falsy for the `||` defaulting in
the source). -/
structure Warden where
  username : String
  name : String
  block : String
deriving DecidableEq, Repr

/-- An HOD directory record as read from the `hod` tree. -/
structure Hod where
  username : String
  name : String
  department : String
deriving DecidableEq, Repr

/-- A stored pass-request record (the JSON blob kept under `passRequests`).
Fields are those consumed by the lifecycle logic; string fields that may be
absent are modelled as `""` (absent and empty are both falsy in the source),
except the timestamp fields, approver stamps and the legacy `username`
marker, which are `Option`s because the code branches on their presence. -/
structure PassRequest where
  id : String
  type : ReqType
  emp_code : String
  first_name : String
  department : String
  year : String
  date : String
  reason : String
  block : String
  status : Status
  createdAt : Option Int
  grantedAt : Option Int
  expiresAt : Option Int
  assignedWarden : Option WardenRef
  assignedHod : Option HodRef
  hodApprovedBy : Option HodRef
  wardenApprovedBy : Option WardenRef
  /-- Legacy records written by older app versions carried a `username`
  field; records produced by the current `savePassRequest` do not.  The
  format heuristics in `fetchAllPassRequests`, `deleteExpiredPassRequests`
  and `cleanupOldPassRequests` test `'username' in firstValue`. -/
  username : Option String
deriving DecidableEq, Repr

/-- The `PassRequestData` argument of `savePassRequest`.  Optional string
fields are modelled as `""` when absent. -/
structure PassRequestData where
  emp_code : String
  type : ReqType
  first_name : String
  department : String
  year : String
  date : String
  reason : String
  block : String
  roomNumber : String
  mobileNumber : String
deriving DecidableEq, Repr

/-- Milliseconds in three days: `3 * 24 * 60 * 60 * 1000`. -/
def threeDaysMs : Int := 3 * 24 * 60 * 60 * 1000

/-- Milliseconds in one day: `24 * 60 * 60 * 1000`. -/
def oneDayMs : Int := 24 * 60 * 60 * 1000

/-- `isOlderThan3Days` (utils.ts, also duplicated in WardenDashboard):
`false` when `createdAt` is falsy, otherwise `now - created > 3 days`. -/
def isOlderThan3Days (now : Int) (createdAt : Option Int) : Bool :=
  match createdAt with
  | none => false
  | some created => now - created > threeDaysMs

/-- `isExpired` (utils.ts): `true` when `createdAt` is falsy ("if no creation
date, consider it expired"), otherwise `now - created > 3 days`. -/
def isExpired (now : Int) (createdAt : Option Int) : Bool :=
  match createdAt with
  | none => true
  | some created => now - created > threeDaysMs

/-- `filterOutExpiredRequests` (utils.ts): keep only requests that are not
expired. -/
def filterOutExpiredRequests (now : Int) (requests : List PassRequest) :
    List PassRequest :=
  requests.filter (fun request => !isExpired now request.createdAt)

/-- The result record of `getTimeUntilExpiry` / `getTimeUntilPassExpiry`.
The floating-point `percentageRemaining` and derived `color` fields are
display cosmetics not referenced by any lifecycle logic and are omitted. -/
structure ExpiryInfo where
  isExpired : Bool
  timeRemaining : String
deriving DecidableEq, Repr

/-- `getTimeUntilExpiry` (utils.ts): time remaining until the 3-day age
limit, measured from `createdAt`. -/
def getTimeUntilExpiry (now : Int) (createdAt : Option Int) : ExpiryInfo :=
  match createdAt with
  | none => { isExpired := true, timeRemaining := "Unknown" }
  | some created =>
    let timeRemaining : Int := created + threeDaysMs - now
    if timeRemaining ≤ 0 then
      { isExpired := true, timeRemaining := "Expired" }
    else
      let t : Nat := timeRemaining.toNat
      let days : Nat := t / (24 * 60 * 60 * 1000)
      let hours : Nat := t % (24 * 60 * 60 * 1000) / (60 * 60 * 1000)
      let minutes : Nat := t % (60 * 60 * 1000) / (60 * 1000)
      if days > 0 then
        { isExpired := false, timeRemaining := s!"{days}d {hours}h" }
      else if hours > 0 then
        { isExpired := false, timeRemaining := s!"{hours}h {minutes}m" }
      else
        { isExpired := false, timeRemaining := s!"{minutes}m" }

/-- `getTimeUntilPassExpiry` (utils.ts): time remaining until an explicit
`expiresAt` timestamp (the 24h granted-pass window).  A falsy `expiresAt`
yields a neutral, non-expired placeholder. -/
def getTimeUntilPassExpiry (now : Int) (expiresAt : Option Int) : ExpiryInfo :=
  match expiresAt with
  | none => { isExpired := false, timeRemaining := "—" }
  | some expiryTime =>
    let timeRemaining : Int := expiryTime - now
    if timeRemaining ≤ 0 then
      { isExpired := true, timeRemaining := "Expired" }
    else
      let t : Nat := timeRemaining.toNat
      let hours : Nat := t / (60 * 60 * 1000)
      let minutes : Nat := t % (60 * 60 * 1000) / (60 * 1000)
      if hours > 0 then
        { isExpired := false, timeRemaining := s!"{hours}h {minutes}m" }
      else
        { isExpired := false, timeRemaining := s!"{minutes}m" }

/-- Expiry badge of the warden dashboard `Section` component (and the
identical badge in `StudentDashboard`): a `warden_approved` request with a
truthy `expiresAt` is displayed via `getTimeUntilPassExpiry`, every other
request via `getTimeUntilExpiry` over `createdAt`. -/
def sectionExpiryBadge (now : Int) (r : PassRequest) : ExpiryInfo :=
  if r.status = .warden_approved && r.expiresAt.isSome then
    getTimeUntilPassExpiry now r.expiresAt
  else
    getTimeUntilExpiry now r.createdAt

/-- Expiry badge of `HODDashboard`: always computed from `createdAt` via
`getTimeUntilExpiry`, for every status. -/
def hodExpiryBadge (now : Int) (r : PassRequest) : ExpiryInfo :=
  getTimeUntilExpiry now r.createdAt

/-- The reference object built from a matching warden record: `name` defaults
to `username` through `warden.name || warden.username`. -/
def mkWardenRef (w : Warden) : WardenRef :=
  { username := w.username
    name := if w.name = "" then w.username else w.name
    block := w.block }

/-- `getAssignedWardenByBlock` (utils.ts): linear scan over the `warden`
tree in iteration order, returning the first record whose `block` field is
strictly equal (`===`) to the submitted block; `null` when no record
matches (or the tree is empty). -/
def getAssignedWardenByBlock (wardens : List Warden) (block : String) :
    Option WardenRef :=
  (wardens.find? (fun w => w.block = block)).map mkWardenRef

/-- `department.toUpperCase()`, applied characterwise (ASCII; all table
keys are ASCII). -/
def jsToUpperCase (s : String) : String :=
  ⟨s.data.map Char.toUpper⟩

/-- The static `departmentToHodMapping` table inside
`getAssignedHodByDepartment`. -/
def departmentToHodMapping (dept : String) : Option String :=
  if dept = "AIDS" then some "HOD006"
  else if dept = "AIML" then some "HOD006"
  else if dept = "CYBER SECURITY" then some "HOD006"
  else if dept = "CSE" then some "HOD006"
  else if dept = "IT" then some "HOD006"
  else if dept = "ECE" then some "HOD001"
  else if dept = "CIVIL" then some "HOD003"
  else if dept = "EEE" then some "HOD002"
  else if dept = "MECH" then some "HOD004"
  else none

/-- Association-list lookup modelling `hods[assignedHodId]` over the keyed
`hod` tree. -/
def lookupAssoc {α : Type} (l : List (String × α)) (k : String) : Option α :=
  (l.find? (fun p => p.1 = k)).map Prod.snd

/-- `getAssignedHodByDepartment` (utils.ts): the submitted department is
upper-cased and mapped through the static table; the result is the HOD
record stored under that id, or `null` when the department is unmapped or
the id has no record.  `name` defaults through `hod.name || hod.username`
and `department` through `hod.department || department`. -/
def getAssignedHodByDepartment (hods : List (String × Hod))
    (department : String) : Option HodRef :=
  match departmentToHodMapping (jsToUpperCase department) with
  | none => none
  | some assignedHodId =>
    match lookupAssoc hods assignedHodId with
    | none => none
    | some hod =>
      some { username := hod.username
             name := if hod.name = "" then hod.username else hod.name
             department := if hod.department = "" then department
                           else hod.department }

/-- A direct child of the `passRequests` tree: either a legacy flat request
record (`passRequests/{id}`) or a per-user bucket of request records
(`passRequests/{sanitized_emp_code}/{id}`). -/
inductive Child where
  | req (r : PassRequest)
  | bucket (b : List (String × PassRequest))
deriving DecidableEq, Repr

/-- The `passRequests` tree: its ordered list of keyed children.  Both
layouts coexist in the one tree, exactly as on disk. -/
abbrev Store : Type := List (String × Child)

/-- Reading `passRequests/{key}`: the first child stored under `key`, if
any.  `snapshot.exists()` corresponds to the lookup returning `some`. -/
def lookupChild (store : Store) (key : String) : Option Child :=
  (store.find? (fun p => p.1 = key)).map Prod.snd

/-- The `'username' in firstValue` format heuristic shared by
`fetchAllPassRequests`, `deleteExpiredPassRequests` and
`cleanupOldPassRequests`: a child is treated as new-format when it is an
object without a `username` key.  A user bucket is keyed by push-generated
request ids and so never has a `username` key; a flat request record has one
exactly when the legacy `username` field is present. -/
def childIsNewFormat : Child → Bool
  | .bucket _ => true
  | .req r => r.username.isNone

/-- The flat legacy record stored at `passRequests/{id}`, as a proposition
on the tree. -/
@[reducible] def flatEntry (store : Store) (id : String) (r : PassRequest) : Prop :=
  (id, Child.req r) ∈ store

/-- The nested record stored at `passRequests/{user}/{id}`, as a proposition
on the tree. -/
def nestedEntry (store : Store) (user id : String) (r : PassRequest) : Prop :=
  ∃ b, (user, Child.bucket b) ∈ store ∧ (id, r) ∈ b

/-- `fetchUserPassRequests` (utils.ts).  It first reads
`passRequests/{emp_code}`; when that node exists its `Object.values` are
returned through the expiry filter, and only otherwise does it fall back to
scanning the flat layout for records whose `emp_code` field matches.
If the node found at `passRequests/{emp_code}` is a legacy flat record, its
`Object.values` are the record's field values, none of which carries a
`createdAt`, so `filterOutExpiredRequests` removes them all; that branch is
therefore embedded as the empty result. -/
def fetchUserPassRequests (now : Int) (store : Store) (emp_code : String) :
    List PassRequest :=
  match lookupChild store emp_code with
  | some (.bucket b) => filterOutExpiredRequests now (b.map Prod.snd)
  | some (.req _) => []
  | none =>
    filterOutExpiredRequests now
      (store.filterMap (fun p =>
        match p.2 with
        | .req r => if r.emp_code = emp_code then some r else none
        | .bucket _ => none))

/-- `fetchAllPassRequests` (utils.ts).  The whole `passRequests` tree is
read once and interpreted as a single layout chosen by the
`'username' in firstValue` heuristic on its first child.
In the new-format branch every child is iterated as a user bucket; a flat
record child contributes its field values, which lack `createdAt` and are
removed by the expiry filter, so such children are embedded as contributing
nothing.  In the old-format branch every child is pushed as a request; a
bucket child lacks `createdAt` and is likewise removed by the filter. -/
def fetchAllPassRequests (now : Int) (store : Store) : List PassRequest :=
  match store with
  | [] => []
  | (_, c0) :: _ =>
    if childIsNewFormat c0 then
      filterOutExpiredRequests now
        (store.flatMap (fun p =>
          match p.2 with
          | .bucket b => b.map Prod.snd
          | .req _ => []))
    else
      filterOutExpiredRequests now
        (store.filterMap (fun p =>
          match p.2 with
          | .req r => some r
          | .bucket _ => none))

/-- `deleteExpiredPassRequests` (utils.ts): the hard-delete sweep.  The
layout is chosen once by the heuristic on the first child; in the chosen
layout every record with a truthy `createdAt` that `isExpired` is removed.
In the new-format branch only bucket members are examined (a flat child is
iterated over its fields, none of which has a `createdAt`, so it is left in
place); in the old-format branch only flat children are examined (a bucket
child has no `createdAt` field, so it is left in place). -/
def deleteExpiredPassRequests (now : Int) (store : Store) : Store :=
  match store with
  | [] => store
  | (_, c0) :: _ =>
    if childIsNewFormat c0 then
      store.map (fun p =>
        match p.2 with
        | .bucket b =>
          (p.1, Child.bucket (b.filter (fun q =>
            !(q.2.createdAt.isSome && isExpired now q.2.createdAt))))
        | .req _ => p)
    else
      store.filter (fun p =>
        match p.2 with
        | .req r => !(r.createdAt.isSome && isExpired now r.createdAt)
        | .bucket _ => true)

/-- `cleanupOldPassRequests` (utils.ts): identical sweep structure, with the
`isOlderThan3Days` age test in the deletion guard. -/
def cleanupOldPassRequests (now : Int) (store : Store) : Store :=
  match store with
  | [] => store
  | (_, c0) :: _ =>
    if childIsNewFormat c0 then
      store.map (fun p =>
        match p.2 with
        | .bucket b =>
          (p.1, Child.bucket (b.filter (fun q =>
            !(q.2.createdAt.isSome && isOlderThan3Days now q.2.createdAt))))
        | .req _ => p)
    else
      store.filter (fun p =>
        match p.2 with
        | .req r => !(r.createdAt.isSome && isOlderThan3Days now r.createdAt)
        | .bucket _ => true)

/-- The characters replaced by the sanitizing regex `/[.#$[\]]/g`. -/
def specialChars : List Char := ['.', '#', '$', '[', ']']

/-- One character of the sanitization: each of `. # $ [ ]` becomes `_`. -/
def sanitizeChar (c : Char) : Char :=
  if c ∈ specialChars then '_' else c

/-- `emp_code.replace(/[.#$[\]]/g, '_')`, applied characterwise. -/
def sanitizeEmpCode (s : String) : String :=
  ⟨s.data.map sanitizeChar⟩

/-- The string name of a request type, as interpolated into paths and
signatures. -/
def ReqType.str : ReqType → String
  | .outing => "outing"
  | .home_visit => "home_visit"

/-- The duplicate-prevention signature built in `savePassRequest`:
`` `${sanitizedEmpCode}-${type}-${date}-${reason.substring(0, 50)}` ``. -/
def requestSignature (rd : PassRequestData) : String :=
  sanitizeEmpCode rd.emp_code ++ "-" ++ rd.type.str ++ "-" ++ rd.date ++ "-"
    ++ rd.reason.take 50

/-- `DUPLICATE_PREVENTION_WINDOW = 5000` milliseconds. -/
def DUPLICATE_PREVENTION_WINDOW : Int := 5000

/-- The duplicate test in `savePassRequest`: the in-memory
`recentSubmissions` map holds this signature with a timestamp less than the
window ago. -/
def duplicateBlocked (recent : List (String × Int)) (rd : PassRequestData)
    (now : Int) : Bool :=
  match lookupAssoc recent (requestSignature rd) with
  | some lastSubmission => now - lastSubmission < DUPLICATE_PREVENTION_WINDOW
  | none => false

/-- `Map.set` over the association-list model of `recentSubmissions`:
replace the value under an existing key, else append. -/
def assocSet (l : List (String × Int)) (k : String) (v : Int) :
    List (String × Int) :=
  if (l.find? (fun p => p.1 = k)).isSome then
    l.map (fun p => if p.1 = k then (k, v) else p)
  else
    l ++ [(k, v)]

/-- Writing the freshly pushed record at
`passRequests/{sanitizedEmpCode}/{newId}`: append to the existing user
bucket, or create the bucket.  A flat legacy record keyed by exactly the
sanitized emp code is not representable alongside the write in this
embedding (flat keys are push-generated ids, which never equal an emp
code); that impossible collision case replaces the child. -/
def storeInsertNested (store : Store) (user id : String) (r : PassRequest) :
    Store :=
  match lookupChild store user with
  | some (.bucket _) =>
    store.map (fun p =>
      match p.2 with
      | .bucket b => if p.1 = user then (p.1, Child.bucket (b ++ [(id, r)])) else p
      | .req _ => p)
  | some (.req _) => store.map (fun p =>
      if p.1 = user then (p.1, Child.bucket [(id, r)]) else p)
  | none => store ++ [(user, Child.bucket [(id, r)])]

/-- `savePassRequest` (utils.ts).  In order: the missing-`emp_code` throw,
the signature/duplicate throw, recording the submission and pruning stale
signatures, resolving `assignedWarden` (only when `block` is truthy) and
`assignedHod` (only for a home visit with a truthy `department`), and the
write of the pushed record — with the raw `emp_code` inside the record but
the sanitized one in the path — under status `pending` with `createdAt`
stamped now.  On success it returns the updated `recentSubmissions` map,
the updated tree, and the saved record. -/
def savePassRequest (wardens : List Warden) (hods : List (String × Hod))
    (recent : List (String × Int)) (now : Int) (store : Store)
    (newId : String) (rd : PassRequestData) :
    Except String (List (String × Int) × Store × PassRequest) :=
  if rd.emp_code = "" then
    .error "Employee code is required to save pass request"
  else
    let sanitizedEmpCode := sanitizeEmpCode rd.emp_code
    if duplicateBlocked recent rd now then
      .error "Please wait 5 seconds before submitting another similar request"
    else
      let recent1 := assocSet recent (requestSignature rd) now
      let recent2 := recent1.filter (fun p =>
        !(now - p.2 > DUPLICATE_PREVENTION_WINDOW))
      let assignedWarden :=
        if rd.block ≠ "" then getAssignedWardenByBlock wardens rd.block
        else none
      let assignedHod :=
        if rd.type = .home_visit ∧ rd.department ≠ "" then
          getAssignedHodByDepartment hods rd.department
        else none
      let requestWithId : PassRequest :=
        { id := newId
          type := rd.type
          emp_code := rd.emp_code
          first_name := rd.first_name
          department := rd.department
          year := rd.year
          date := rd.date
          reason := rd.reason
          block := rd.block
          status := .pending
          createdAt := some now
          grantedAt := none
          expiresAt := none
          assignedWarden := assignedWarden
          assignedHod := assignedHod
          hodApprovedBy := none
          wardenApprovedBy := none
          username := none }
      .ok (recent2, storeInsertNested store sanitizedEmpCode newId requestWithId,
        requestWithId)

/-- The record created when `update()` runs against a flat path that holds
nothing: only the update's own fields exist afterwards.  Placeholder values
stand for the absent fields (they are never read by any property proved
here). -/
def blankRequest : PassRequest :=
  { id := "", type := .outing, emp_code := "", first_name := ""
    department := "", year := "", date := "", reason := "", block := ""
    status := .pending, createdAt := none, grantedAt := none
    expiresAt := none, assignedWarden := none, assignedHod := none
    hodApprovedBy := none, wardenApprovedBy := none, username := none }

/-- The merge written by the warden `updateRequestStatus` / bulk approval:
always the new status; an approval additionally stamps `wardenApprovedBy`,
`grantedAt = now` and `expiresAt = now + 24h`; a decline writes the status
alone. -/
def applyWardenUpdateData (st : Status) (u : WardenRef) (now : Int)
    (q : PassRequest) : PassRequest :=
  if st = .warden_approved then
    { q with status := st, wardenApprovedBy := some u
             grantedAt := some now, expiresAt := some (now + oneDayMs) }
  else
    { q with status := st }

/-- The merge written by the HOD `updateRequestStatus`: the new status, and
on approval the `hodApprovedBy` stamp. -/
def applyHodUpdateData (st : Status) (u : HodRef) (q : PassRequest) :
    PassRequest :=
  if st = .hod_approved then
    { q with status := st, hodApprovedBy := some u }
  else
    { q with status := st }

/-- `snapshot.exists()` for the nested path `passRequests/{user}/{id}`. -/
def nestedExists (store : Store) (user id : String) : Bool :=
  match lookupChild store user with
  | some (.bucket b) => (lookupAssoc b id).isSome
  | _ => false

/-- Merging `f` into the record at `passRequests/{user}/{id}` (the
new-format branch of `updateRequestStatus`). -/
def nestedUpdate (store : Store) (user id : String)
    (f : PassRequest → PassRequest) : Store :=
  store.map (fun p =>
    match p.2 with
    | .bucket b =>
      if p.1 = user then
        (p.1, Child.bucket (b.map (fun q =>
          if q.1 = id then (q.1, f q.2) else q)))
      else p
    | .req _ => p)

/-- `update()` against the flat path `passRequests/{id}`: merge into the
existing flat record, or create one holding only the update's fields.  A
bucket stored under a flat request id cannot arise (flat keys are
push-generated ids, bucket keys sanitized emp codes) and is left unchanged
as that graft is not representable here. -/
def flatUpdateOrCreate (store : Store) (id : String)
    (f : PassRequest → PassRequest) : Store :=
  match lookupChild store id with
  | some (.req _) =>
    store.map (fun p =>
      match p.2 with
      | .req q => if p.1 = id then (p.1, Child.req (f q)) else p
      | .bucket _ => p)
  | some (.bucket _) => store
  | none => store ++ [(id, Child.req (f blankRequest))]

/-- `set()` against `passRequests/{user}/{id}` (the copy-forward block of
the HOD fallback path): overwrite or append inside the user bucket, or
create the bucket.  The impossible flat-record collision is replaced, as in
`storeInsertNested`. -/
def setNested (store : Store) (user id : String) (q : PassRequest) : Store :=
  match lookupChild store user with
  | some (.bucket _) =>
    store.map (fun p =>
      match p.2 with
      | .bucket b' =>
        if p.1 = user then
          (p.1, Child.bucket
            (if (lookupAssoc b' id).isSome then
              b'.map (fun e => if e.1 = id then (e.1, q) else e)
            else b' ++ [(id, q)]))
        else p
      | .req _ => p)
  | some (.req _) => store.map (fun p =>
      if p.1 = user then (p.1, Child.bucket [(id, q)]) else p)
  | none => store ++ [(user, Child.bucket [(id, q)])]

/-- The warden `updateRequestStatus` write path (WardenDashboard): try
`passRequests/{request.emp_code}/{id}` with the raw `emp_code` field, and
only when that node exists update it; otherwise fall back to an old-format
`update()` at `passRequests/{id}`. -/
def wardenUpdateRequestStatus (store : Store) (r : PassRequest) (st : Status)
    (u : WardenRef) (now : Int) : Store :=
  if r.emp_code ≠ "" ∧ nestedExists store r.emp_code r.id then
    nestedUpdate store r.emp_code r.id (applyWardenUpdateData st u now)
  else
    flatUpdateOrCreate store r.id (applyWardenUpdateData st u now)

/-- The HOD `updateRequestStatus` write path (HODDashboard): as for the
warden, with the raw `emp_code` in the new-format path; its fallback branch
additionally copies the resulting flat record forward to
`passRequests/{request.emp_code}/{id}` — again with the raw `emp_code`. -/
def hodUpdateRequestStatus (store : Store) (r : PassRequest) (st : Status)
    (u : HodRef) : Store :=
  if r.emp_code ≠ "" ∧ nestedExists store r.emp_code r.id then
    nestedUpdate store r.emp_code r.id (applyHodUpdateData st u)
  else
    let store1 := flatUpdateOrCreate store r.id (applyHodUpdateData st u)
    if r.emp_code ≠ "" then
      match lookupChild store1 r.id with
      | some (.req full) => setNested store1 r.emp_code r.id full
      | _ => store1
    else store1

/-- The action gate of the warden dashboard `Section` component: approve and
decline buttons render exactly for a pending outing request or an
HOD-approved home-visit request. -/
def wardenShowsActions (t : ReqType) (s : Status) : Bool :=
  (t = .outing && s = .pending) || (t = .home_visit && s = .hod_approved)

/-- The action gate of the HOD dashboard: buttons render exactly for a
pending request (the dashboard's queue holds only home-visit requests
assigned to this HOD). -/
def hodShowsActions (s : Status) : Bool :=
  s = .pending

/-- The per-request eligibility filter of the warden bulk handlers
(`handleApproveAll` / `handleDeclineAll`): pending outings, HOD-approved
home visits. -/
def wardenBulkEligible (t : ReqType) (s : Status) : Bool :=
  if t = .outing then s = .pending else s = .hod_approved

/-- The per-request eligibility filter of the HOD bulk handlers: pending
requests. -/
def hodBulkEligible (s : Status) : Bool :=
  s = .pending

/-- One approval/decline operation of the dashboards applied to one
request, with its gate.  Single operations are gated by the rendered action
buttons (`wardenShowsActions`, `hodShowsActions`); bulk operations by the
eligibility filters of the bulk handlers.  The HOD dashboard's queue
contains only home-visit requests (its `loadRequests` filter), hence the
`home_visit` side conditions on the HOD constructors.  Declines write the
status alone; approvals write the approver stamp and, for the warden, the
grant/expiry pair. -/
inductive DashboardStep (now : Int) : PassRequest → PassRequest → Prop where
  | wardenApprove (r : PassRequest) (u : WardenRef)
      (h : wardenShowsActions r.type r.status = true) :
      DashboardStep now r (applyWardenUpdateData .warden_approved u now r)
  | wardenDecline (r : PassRequest)
      (h : wardenShowsActions r.type r.status = true) :
      DashboardStep now r { r with status := .declined }
  | wardenApproveAll (r : PassRequest) (u : WardenRef)
      (h : wardenBulkEligible r.type r.status = true) :
      DashboardStep now r (applyWardenUpdateData .warden_approved u now r)
  | wardenDeclineAll (r : PassRequest)
      (h : wardenBulkEligible r.type r.status = true) :
      DashboardStep now r { r with status := .declined }
  | hodApprove (r : PassRequest) (u : HodRef)
      (hty : r.type = .home_visit) (h : hodShowsActions r.status = true) :
      DashboardStep now r (applyHodUpdateData .hod_approved u r)
  | hodDecline (r : PassRequest)
      (hty : r.type = .home_visit) (h : hodShowsActions r.status = true) :
      DashboardStep now r { r with status := .declined }
  | hodApproveAll (r : PassRequest) (u : HodRef)
      (hty : r.type = .home_visit) (h : hodBulkEligible r.status = true) :
      DashboardStep now r
        { r with status := .hod_approved, hodApprovedBy := some u }
  | hodDeclineAll (r : PassRequest)
      (hty : r.type = .home_visit) (h : hodBulkEligible r.status = true) :
      DashboardStep now r { r with status := .declined }

/-- The §4.2 state machine of the spec, per request type: forward edges
`pending→hod_approved` (home visit), `pending→warden_approved` (outing),
`hod_approved→warden_approved` (home visit), and declines out of `pending`
or `hod_approved`. -/
def specEdge (t : ReqType) (s s' : Status) : Bool :=
  match s, s' with
  | .pending, .hod_approved => t = .home_visit
  | .pending, .warden_approved => t = .outing
  | .hod_approved, .warden_approved => t = .home_visit
  | .pending, .declined => true
  | .hod_approved, .declined => true
  | _, _ => false

/-! Concrete data used by witnesses and counterexamples. -/

/-- A concrete warden user. -/
def aWarden : WardenRef := { username := "warden1", name := "W", block := "A(Boys)" }

/-- A concrete HOD user. -/
def aHod : HodRef := { username := "hod1", name := "H", department := "CSE" }

/-- A concrete pending outing request. -/
def aRequest : PassRequest :=
  { id := "rid1", type := .outing, emp_code := "EMP1", first_name := "S"
    department := "CSE", year := "III", date := "2025-01-01", reason := "r"
    block := "A(Boys)", status := .pending, createdAt := some 0
    grantedAt := none, expiresAt := none, assignedWarden := none
    assignedHod := none, hodApprovedBy := none, wardenApprovedBy := none
    username := none }

/-- A concrete fresh nested request (created at `threeDaysMs + 1`). -/
def freshNestedReq : PassRequest :=
  { aRequest with id := "idA", emp_code := "u1", createdAt := some (threeDaysMs + 1) }

/-- A concrete expired flat legacy request for user `u1` (created at 0,
viewed at `threeDaysMs + 1`). -/
def expiredFlatReq : PassRequest :=
  { aRequest with id := "idB", emp_code := "u1", createdAt := some 0 }

/-- A concrete mixed-layout tree: a new-format bucket first, then a flat
legacy record of the same user. -/
def mixedStore : Store :=
  [("u1", Child.bucket [("idA", freshNestedReq)]), ("idB", Child.req expiredFlatReq)]

/-- A concrete expired flat legacy record carrying the legacy `username`
field (so the format heuristic classifies a tree led by it as
old-format). -/
def legacyFlatReq : PassRequest :=
  { expiredFlatReq with username := some "stu1" }

/-- A concrete fresh flat legacy record of user `u1`. -/
def otherFlatReq : PassRequest :=
  { aRequest with id := "idB", emp_code := "u1" }

/-- A concrete tree holding one fresh request for `u1` in each layout. -/
def dualLayoutStore : Store :=
  [("u1", Child.bucket [("idA", { aRequest with id := "idA", emp_code := "u1" })]),
   ("idB", Child.req otherFlatReq)]

/-- A concrete submission with an empty employee code. -/
def noEmpCodeData : PassRequestData :=
  { emp_code := "", type := .outing, first_name := "S", department := "CSE"
    year := "III", date := "2025-01-01", reason := "r", block := "A(Boys)"
    roomNumber := "101", mobileNumber := "9" }

/-- A concrete submission with an unmapped department and an unmatched
block. -/
def unassignedData : PassRequestData :=
  { emp_code := "EMP1", type := .home_visit, first_name := "S"
    department := "MBA", year := "III", date := "2025-01-01", reason := "r"
    block := "Z", roomNumber := "101", mobileNumber := "9" }

/-- A concrete granted pass whose 24h window ends at time 5000. -/
def grantedReq : PassRequest :=
  { aRequest with status := .warden_approved, expiresAt := some 5000 }

/-- A concrete granted pass created at 0 whose 24h window ends only at ten
days. -/
def longGrantedReq : PassRequest :=
  { aRequest with status := .warden_approved, expiresAt := some (10 * oneDayMs) }

/-! Theorems.  General lemmas about the expiry filter and the sweeps come
first; the claim theorems follow. -/

theorem fetchAllPassRequests_cons (now : Int) (k : String) (c : Child)
    (rest : List (String × Child)) :
    fetchAllPassRequests now ((k, c) :: rest) =
      if childIsNewFormat c then
        filterOutExpiredRequests now
          (((k, c) :: rest).flatMap (fun p =>
            match p.2 with
            | .bucket b => b.map Prod.snd
            | .req _ => []))
      else
        filterOutExpiredRequests now
          (((k, c) :: rest).filterMap (fun p =>
            match p.2 with
            | .req r => some r
            | .bucket _ => none)) := rfl

theorem deleteExpiredPassRequests_cons (now : Int) (k : String) (c : Child)
    (rest : List (String × Child)) :
    deleteExpiredPassRequests now ((k, c) :: rest) =
      if childIsNewFormat c then
        ((k, c) :: rest).map (fun p =>
          match p.2 with
          | .bucket b =>
            (p.1, Child.bucket (b.filter (fun q =>
              !(q.2.createdAt.isSome && isExpired now q.2.createdAt))))
          | .req _ => p)
      else
        ((k, c) :: rest).filter (fun p =>
          match p.2 with
          | .req r => !(r.createdAt.isSome && isExpired now r.createdAt)
          | .bucket _ => true) := rfl

theorem cleanupOldPassRequests_cons (now : Int) (k : String) (c : Child)
    (rest : List (String × Child)) :
    cleanupOldPassRequests now ((k, c) :: rest) =
      if childIsNewFormat c then
        ((k, c) :: rest).map (fun p =>
          match p.2 with
          | .bucket b =>
            (p.1, Child.bucket (b.filter (fun q =>
              !(q.2.createdAt.isSome && isOlderThan3Days now q.2.createdAt))))
          | .req _ => p)
      else
        ((k, c) :: rest).filter (fun p =>
          match p.2 with
          | .req r => !(r.createdAt.isSome && isOlderThan3Days now r.createdAt)
          | .bucket _ => true) := rfl

theorem mem_filterOutExpiredRequests {now : Int} {rs : List PassRequest}
    {r : PassRequest} :
    r ∈ filterOutExpiredRequests now rs ↔
      r ∈ rs ∧ isExpired now r.createdAt = false := by
  simp [filterOutExpiredRequests, List.mem_filter]

theorem isExpired_false_of_mem_fetchUser {now : Int} {s : Store}
    {ec : String} {r : PassRequest} (h : r ∈ fetchUserPassRequests now s ec) :
    isExpired now r.createdAt = false := by
  unfold fetchUserPassRequests at h
  cases hc : lookupChild s ec with
  | none => rw [hc] at h; exact (mem_filterOutExpiredRequests.mp h).2
  | some c =>
    cases c with
    | bucket b => rw [hc] at h; exact (mem_filterOutExpiredRequests.mp h).2
    | req q => rw [hc] at h; exact absurd h (List.not_mem_nil r)

theorem isExpired_false_of_mem_fetchAll {now : Int} {s : Store}
    {r : PassRequest} (h : r ∈ fetchAllPassRequests now s) :
    isExpired now r.createdAt = false := by
  cases s with
  | nil => exact absurd h (List.not_mem_nil r)
  | cons p rest =>
    obtain ⟨k, c⟩ := p
    rw [fetchAllPassRequests_cons] at h
    by_cases hcf : childIsNewFormat c = true
    · rw [if_pos hcf] at h; exact (mem_filterOutExpiredRequests.mp h).2
    · rw [if_neg hcf] at h; exact (mem_filterOutExpiredRequests.mp h).2

theorem nestedEntry_preserved_delete {now : Int} {s : Store}
    {u id : String} {r : PassRequest}
    (hkeep : (r.createdAt.isSome && isExpired now r.createdAt) = false)
    (h : nestedEntry s u id r) :
    nestedEntry (deleteExpiredPassRequests now s) u id r := by
  obtain ⟨b, hb, hm⟩ := h
  cases s with
  | nil => exact absurd hb (List.not_mem_nil _)
  | cons p rest =>
    obtain ⟨k, c⟩ := p
    rw [deleteExpiredPassRequests_cons]
    by_cases hcf : childIsNewFormat c = true
    · rw [if_pos hcf]
      refine ⟨b.filter (fun q =>
        !(q.2.createdAt.isSome && isExpired now q.2.createdAt)), ?_, ?_⟩
      · exact List.mem_map.mpr ⟨(u, Child.bucket b), hb, rfl⟩
      · exact List.mem_filter.mpr ⟨hm, by simp [hkeep]⟩
    · rw [if_neg hcf]
      exact ⟨b, List.mem_filter.mpr ⟨hb, rfl⟩, hm⟩

theorem flatEntry_preserved_delete {now : Int} {s : Store}
    {id : String} {r : PassRequest}
    (hkeep : (r.createdAt.isSome && isExpired now r.createdAt) = false)
    (h : flatEntry s id r) :
    flatEntry (deleteExpiredPassRequests now s) id r := by
  cases s with
  | nil => exact absurd h (List.not_mem_nil _)
  | cons p rest =>
    obtain ⟨k, c⟩ := p
    rw [deleteExpiredPassRequests_cons]
    by_cases hcf : childIsNewFormat c = true
    · rw [if_pos hcf]
      exact List.mem_map.mpr ⟨(id, Child.req r), h, rfl⟩
    · rw [if_neg hcf]
      exact List.mem_filter.mpr ⟨h, by simp [hkeep]⟩

theorem nestedEntry_preserved_cleanup {now : Int} {s : Store}
    {u id : String} {r : PassRequest}
    (hkeep : (r.createdAt.isSome && isOlderThan3Days now r.createdAt) = false)
    (h : nestedEntry s u id r) :
    nestedEntry (cleanupOldPassRequests now s) u id r := by
  obtain ⟨b, hb, hm⟩ := h
  cases s with
  | nil => exact absurd hb (List.not_mem_nil _)
  | cons p rest =>
    obtain ⟨k, c⟩ := p
    rw [cleanupOldPassRequests_cons]
    by_cases hcf : childIsNewFormat c = true
    · rw [if_pos hcf]
      refine ⟨b.filter (fun q =>
        !(q.2.createdAt.isSome && isOlderThan3Days now q.2.createdAt)), ?_, ?_⟩
      · exact List.mem_map.mpr ⟨(u, Child.bucket b), hb, rfl⟩
      · exact List.mem_filter.mpr ⟨hm, by simp [hkeep]⟩
    · rw [if_neg hcf]
      exact ⟨b, List.mem_filter.mpr ⟨hb, rfl⟩, hm⟩

theorem flatEntry_preserved_cleanup {now : Int} {s : Store}
    {id : String} {r : PassRequest}
    (hkeep : (r.createdAt.isSome && isOlderThan3Days now r.createdAt) = false)
    (h : flatEntry s id r) :
    flatEntry (cleanupOldPassRequests now s) id r := by
  cases s with
  | nil => exact absurd h (List.not_mem_nil _)
  | cons p rest =>
    obtain ⟨k, c⟩ := p
    rw [cleanupOldPassRequests_cons]
    by_cases hcf : childIsNewFormat c = true
    · rw [if_pos hcf]
      exact List.mem_map.mpr ⟨(id, Child.req r), h, rfl⟩
    · rw [if_neg hcf]
      exact List.mem_filter.mpr ⟨h, by simp [hkeep]⟩

theorem nestedEntry_deleted_delete {now : Int} {k : String} {c : Child}
    {rest : List (String × Child)} {u id : String} {r : PassRequest}
    (hdel : (r.createdAt.isSome && isExpired now r.createdAt) = true)
    (hcf : childIsNewFormat c = true) :
    ¬ nestedEntry (deleteExpiredPassRequests now ((k, c) :: rest)) u id r := by
  rintro ⟨b', hb', hm'⟩
  rw [deleteExpiredPassRequests_cons, if_pos hcf] at hb'
  obtain ⟨p, hp, hfp⟩ := List.mem_map.mp hb'
  obtain ⟨k', c'⟩ := p
  cases c' with
  | req q =>
    exact absurd (congrArg Prod.snd hfp) (by simp)
  | bucket b =>
    have hsnd := congrArg Prod.snd hfp
    simp only at hsnd
    have hb : b' = b.filter (fun q =>
        !(q.2.createdAt.isSome && isExpired now q.2.createdAt)) := by
      injection hsnd.symm
    subst hb
    have hpred := (List.mem_filter.mp hm').2
    simp [hdel] at hpred

theorem flatEntry_deleted_delete {now : Int} {k : String} {c : Child}
    {rest : List (String × Child)} {id : String} {r : PassRequest}
    (hdel : (r.createdAt.isSome && isExpired now r.createdAt) = true)
    (hcf : childIsNewFormat c = false) :
    ¬ flatEntry (deleteExpiredPassRequests now ((k, c) :: rest)) id r := by
  intro h
  rw [deleteExpiredPassRequests_cons, if_neg (by simp [hcf])] at h
  have hpred := (List.mem_filter.mp h).2
  simp [hdel] at hpred

theorem nestedEntry_deleted_cleanup {now : Int} {k : String} {c : Child}
    {rest : List (String × Child)} {u id : String} {r : PassRequest}
    (hdel : (r.createdAt.isSome && isOlderThan3Days now r.createdAt) = true)
    (hcf : childIsNewFormat c = true) :
    ¬ nestedEntry (cleanupOldPassRequests now ((k, c) :: rest)) u id r := by
  rintro ⟨b', hb', hm'⟩
  rw [cleanupOldPassRequests_cons, if_pos hcf] at hb'
  obtain ⟨p, hp, hfp⟩ := List.mem_map.mp hb'
  obtain ⟨k', c'⟩ := p
  cases c' with
  | req q =>
    exact absurd (congrArg Prod.snd hfp) (by simp)
  | bucket b =>
    have hsnd := congrArg Prod.snd hfp
    simp only at hsnd
    have hb : b' = b.filter (fun q =>
        !(q.2.createdAt.isSome && isOlderThan3Days now q.2.createdAt)) := by
      injection hsnd.symm
    subst hb
    have hpred := (List.mem_filter.mp hm').2
    simp [hdel] at hpred

theorem flatEntry_deleted_cleanup {now : Int} {k : String} {c : Child}
    {rest : List (String × Child)} {id : String} {r : PassRequest}
    (hdel : (r.createdAt.isSome && isOlderThan3Days now r.createdAt) = true)
    (hcf : childIsNewFormat c = false) :
    ¬ flatEntry (cleanupOldPassRequests now ((k, c) :: rest)) id r := by
  intro h
  rw [cleanupOldPassRequests_cons, if_neg (by simp [hcf])] at h
  have hpred := (List.mem_filter.mp h).2
  simp [hdel] at hpred

theorem flatEntry_untouched_newformat_delete {now : Int} {k : String}
    {c : Child} {rest : List (String × Child)} {id : String} {r : PassRequest}
    (hcf : childIsNewFormat c = true) (h : flatEntry ((k, c) :: rest) id r) :
    flatEntry (deleteExpiredPassRequests now ((k, c) :: rest)) id r := by
  rw [deleteExpiredPassRequests_cons, if_pos hcf]
  exact List.mem_map.mpr ⟨(id, Child.req r), h, rfl⟩

theorem nestedEntry_untouched_oldformat_delete {now : Int} {k : String}
    {c : Child} {rest : List (String × Child)} {u id : String}
    {r : PassRequest} (hcf : childIsNewFormat c = false)
    (h : nestedEntry ((k, c) :: rest) u id r) :
    nestedEntry (deleteExpiredPassRequests now ((k, c) :: rest)) u id r := by
  obtain ⟨b, hb, hm⟩ := h
  rw [deleteExpiredPassRequests_cons, if_neg (by simp [hcf])]
  exact ⟨b, List.mem_filter.mpr ⟨hb, rfl⟩, hm⟩

/-- C1: every approval/decline operation of the dashboards — single or
bulk, by HOD or warden — moves a request's status only along an edge of the
§4.2 state machine for its type; in particular no status ever regresses and
no home-visit request moves from `pending` directly to `warden_approved`. -/
theorem C1_steps_follow_state_machine (now : Int) (r r' : PassRequest)
    (hstep : DashboardStep now r r') :
    specEdge r.type r.status r'.status = true := by
  cases hstep with
  | wardenApprove u h =>
    cases ht : r.type <;> cases hs : r.status <;>
      simp_all [wardenShowsActions, specEdge, applyWardenUpdateData]
  | wardenDecline h =>
    cases ht : r.type <;> cases hs : r.status <;>
      simp_all [wardenShowsActions, specEdge]
  | wardenApproveAll u h =>
    cases ht : r.type <;> cases hs : r.status <;>
      simp_all [wardenBulkEligible, specEdge, applyWardenUpdateData]
  | wardenDeclineAll h =>
    cases ht : r.type <;> cases hs : r.status <;>
      simp_all [wardenBulkEligible, specEdge]
  | hodApprove u hty h =>
    cases hs : r.status <;>
      simp_all [hodShowsActions, specEdge, applyHodUpdateData]
  | hodDecline hty h =>
    cases hs : r.status <;> simp_all [hodShowsActions, specEdge]
  | hodApproveAll u hty h =>
    cases hs : r.status <;> simp_all [hodBulkEligible, specEdge]
  | hodDeclineAll hty h =>
    cases hs : r.status <;> simp_all [hodBulkEligible, specEdge]

/-- Witness for C1 at a concrete warden approval of a pending outing. -/
theorem C1_steps_follow_state_machine_witness :
    specEdge aRequest.type aRequest.status
      (applyWardenUpdateData .warden_approved aWarden 7 aRequest).status = true :=
  C1_steps_follow_state_machine 7 aRequest _
    (DashboardStep.wardenApprove aRequest aWarden (by decide))

/-- C3: any dashboard operation that results in `warden_approved` stamps
`grantedAt` with the approval time and `expiresAt` exactly 24 hours later
(together with the approver); any operation that results in `declined`
leaves `grantedAt` and `expiresAt` untouched. -/
theorem C3_warden_approval_stamps (now : Int) (r r' : PassRequest)
    (hstep : DashboardStep now r r') :
    (r'.status = .warden_approved →
      r'.grantedAt = some now ∧ r'.expiresAt = some (now + oneDayMs) ∧
      r'.wardenApprovedBy.isSome = true) ∧
    (r'.status = .declined →
      r'.grantedAt = r.grantedAt ∧ r'.expiresAt = r.expiresAt) := by
  cases hstep with
  | wardenApprove u h => simp [applyWardenUpdateData]
  | wardenDecline h => simp
  | wardenApproveAll u h => simp [applyWardenUpdateData]
  | wardenDeclineAll h => simp
  | hodApprove u hty h => simp [applyHodUpdateData]
  | hodDecline hty h => simp
  | hodApproveAll u hty h => simp
  | hodDeclineAll hty h => simp

/-- Witness for C3 at a concrete warden approval of a pending outing. -/
theorem C3_warden_approval_stamps_witness :
    (applyWardenUpdateData .warden_approved aWarden 7 aRequest).grantedAt = some 7 ∧
    (applyWardenUpdateData .warden_approved aWarden 7 aRequest).expiresAt =
      some (7 + oneDayMs) :=
  let h := C3_warden_approval_stamps 7 aRequest _
    (DashboardStep.wardenApprove aRequest aWarden (by decide))
  ⟨(h.1 (by decide)).1, (h.1 (by decide)).2.1⟩

/-- C6: across the dashboards the decline action is rendered exactly for a
pending request in the HOD queue, a pending request in the warden outing
queue, and an HOD-approved request in the warden home-visit queue; it is
never rendered for a `warden_approved` or `declined` request. -/
theorem C6_decline_availability :
    hodShowsActions .pending = true ∧
    hodShowsActions .hod_approved = false ∧
    hodShowsActions .warden_approved = false ∧
    hodShowsActions .declined = false ∧
    wardenShowsActions .outing .pending = true ∧
    wardenShowsActions .outing .hod_approved = false ∧
    wardenShowsActions .outing .warden_approved = false ∧
    wardenShowsActions .outing .declined = false ∧
    wardenShowsActions .home_visit .pending = false ∧
    wardenShowsActions .home_visit .hod_approved = true ∧
    wardenShowsActions .home_visit .warden_approved = false ∧
    wardenShowsActions .home_visit .declined = false := by
  decide

/-- C9: a request whose `createdAt` is missing or empty is treated as
expired by `isExpired`, so it is excluded from every filtered and fetched
result set; yet both sweeps skip it because their deletion guards require a
truthy `createdAt`, so it is never deleted from the store either. -/
theorem C9_missing_createdAt_hidden_but_undeletable
    (now : Int) (r : PassRequest) (rs : List PassRequest) (s : Store)
    (u id ec : String) (hc : r.createdAt = none) :
    isExpired now r.createdAt = true ∧
    r ∉ filterOutExpiredRequests now rs ∧
    r ∉ fetchUserPassRequests now s ec ∧
    r ∉ fetchAllPassRequests now s ∧
    (nestedEntry s u id r →
      nestedEntry (deleteExpiredPassRequests now s) u id r ∧
      nestedEntry (cleanupOldPassRequests now s) u id r) ∧
    (flatEntry s id r →
      flatEntry (deleteExpiredPassRequests now s) id r ∧
      flatEntry (cleanupOldPassRequests now s) id r) := by
  have hexp : isExpired now r.createdAt = true := by rw [hc]; rfl
  have hkeep : (r.createdAt.isSome && isExpired now r.createdAt) = false := by
    rw [hc]; rfl
  have hkeep2 : (r.createdAt.isSome && isOlderThan3Days now r.createdAt) = false := by
    rw [hc]; rfl
  refine ⟨hexp, ?_, ?_, ?_, ?_, ?_⟩
  · intro hmem
    have h2 := (mem_filterOutExpiredRequests.mp hmem).2
    rw [hexp] at h2
    simp at h2
  · intro hmem
    have h2 := isExpired_false_of_mem_fetchUser hmem
    rw [hexp] at h2
    simp at h2
  · intro hmem
    have h2 := isExpired_false_of_mem_fetchAll hmem
    rw [hexp] at h2
    simp at h2
  · intro hn
    exact ⟨nestedEntry_preserved_delete hkeep hn,
      nestedEntry_preserved_cleanup hkeep2 hn⟩
  · intro hf
    exact ⟨flatEntry_preserved_delete hkeep hf,
      flatEntry_preserved_cleanup hkeep2 hf⟩

/-- Witness for C9 at a concrete dateless request. -/
theorem C9_missing_createdAt_witness :
    ({ aRequest with createdAt := none } : PassRequest) ∉
      filterOutExpiredRequests 5 [{ aRequest with createdAt := none }] ∧
    flatEntry (deleteExpiredPassRequests 5
      [("x", Child.req { aRequest with createdAt := none })]) "x"
      { aRequest with createdAt := none } :=
  let h := C9_missing_createdAt_hidden_but_undeletable 5
    { aRequest with createdAt := none }
    [{ aRequest with createdAt := none }]
    [("x", Child.req { aRequest with createdAt := none })] "u" "x" "ec" rfl
  ⟨h.2.1, (h.2.2.2.2.2 (by decide)).1⟩

/-- Counterexample to C2 as stated: in a mixed-layout tree led by a
new-format bucket, a flat legacy request older than three days survives
both sweeps — the sweeps do not delete every over-age request regardless of
layout. -/
theorem C2_counterexample :
    isExpired (threeDaysMs + 1) expiredFlatReq.createdAt = true ∧
    flatEntry (deleteExpiredPassRequests (threeDaysMs + 1) mixedStore) "idB"
      expiredFlatReq ∧
    flatEntry (cleanupOldPassRequests (threeDaysMs + 1) mixedStore) "idB"
      expiredFlatReq := by
  decide

/-- C2 (amended): a request with `now - createdAt > 3 days` is excluded
from every filtered/fetched result set; each sweep deletes it when it lives
in the layout selected by the sweep's first-child format heuristic, while
records in the other layout are left untouched; and a request aged three
days or less is neither deleted by the sweeps nor excluded by the
filter. -/
theorem C2_expiry_filter_and_sweeps
    (now c : Int) (r : PassRequest) (rs : List PassRequest) (s : Store)
    (k ec u id : String) (ch : Child) (rest : List (String × Child))
    (hc : r.createdAt = some c) :
    (now - c > threeDaysMs →
      r ∉ filterOutExpiredRequests now rs ∧
      r ∉ fetchUserPassRequests now s ec ∧
      r ∉ fetchAllPassRequests now s) ∧
    (now - c > threeDaysMs → childIsNewFormat ch = true →
      ¬ nestedEntry (deleteExpiredPassRequests now ((k, ch) :: rest)) u id r ∧
      ¬ nestedEntry (cleanupOldPassRequests now ((k, ch) :: rest)) u id r) ∧
    (now - c > threeDaysMs → childIsNewFormat ch = false →
      ¬ flatEntry (deleteExpiredPassRequests now ((k, ch) :: rest)) id r ∧
      ¬ flatEntry (cleanupOldPassRequests now ((k, ch) :: rest)) id r) ∧
    (childIsNewFormat ch = true → flatEntry ((k, ch) :: rest) id r →
      flatEntry (deleteExpiredPassRequests now ((k, ch) :: rest)) id r) ∧
    (childIsNewFormat ch = false → nestedEntry ((k, ch) :: rest) u id r →
      nestedEntry (deleteExpiredPassRequests now ((k, ch) :: rest)) u id r) ∧
    (¬(now - c > threeDaysMs) →
      (r ∈ rs → r ∈ filterOutExpiredRequests now rs) ∧
      (nestedEntry s u id r →
        nestedEntry (deleteExpiredPassRequests now s) u id r ∧
        nestedEntry (cleanupOldPassRequests now s) u id r) ∧
      (flatEntry s id r →
        flatEntry (deleteExpiredPassRequests now s) id r ∧
        flatEntry (cleanupOldPassRequests now s) id r)) := by
  refine ⟨?_, ?_, ?_, ?_, ?_, ?_⟩
  · intro h
    have hexp : isExpired now r.createdAt = true := by
      rw [hc]; exact decide_eq_true h
    refine ⟨?_, ?_, ?_⟩
    · intro hmem
      have h2 := (mem_filterOutExpiredRequests.mp hmem).2
      rw [hexp] at h2; simp at h2
    · intro hmem
      have h2 := isExpired_false_of_mem_fetchUser hmem
      rw [hexp] at h2; simp at h2
    · intro hmem
      have h2 := isExpired_false_of_mem_fetchAll hmem
      rw [hexp] at h2; simp at h2
  · intro h hcf
    have hdel : (r.createdAt.isSome && isExpired now r.createdAt) = true := by
      rw [hc]; simp [isExpired, h]
    have hdel2 : (r.createdAt.isSome && isOlderThan3Days now r.createdAt) = true := by
      rw [hc]; simp [isOlderThan3Days, h]
    exact ⟨nestedEntry_deleted_delete hdel hcf,
      nestedEntry_deleted_cleanup hdel2 hcf⟩
  · intro h hcf
    have hdel : (r.createdAt.isSome && isExpired now r.createdAt) = true := by
      rw [hc]; simp [isExpired, h]
    have hdel2 : (r.createdAt.isSome && isOlderThan3Days now r.createdAt) = true := by
      rw [hc]; simp [isOlderThan3Days, h]
    exact ⟨flatEntry_deleted_delete hdel hcf,
      flatEntry_deleted_cleanup hdel2 hcf⟩
  · intro hcf hf
    exact flatEntry_untouched_newformat_delete hcf hf
  · intro hcf hn
    exact nestedEntry_untouched_oldformat_delete hcf hn
  · intro h
    have hexp : isExpired now r.createdAt = false := by
      rw [hc]; exact decide_eq_false h
    have hold : isOlderThan3Days now r.createdAt = false := by
      rw [hc]; exact decide_eq_false h
    have hkeep : (r.createdAt.isSome && isExpired now r.createdAt) = false := by
      simp [hexp]
    have hkeep2 : (r.createdAt.isSome && isOlderThan3Days now r.createdAt) = false := by
      simp [hold]
    refine ⟨?_, ?_, ?_⟩
    · intro hmem
      exact mem_filterOutExpiredRequests.mpr ⟨hmem, hexp⟩
    · intro hn
      exact ⟨nestedEntry_preserved_delete hkeep hn,
        nestedEntry_preserved_cleanup hkeep2 hn⟩
    · intro hf
      exact ⟨flatEntry_preserved_delete hkeep hf,
        flatEntry_preserved_cleanup hkeep2 hf⟩

/-- Witness for C2 at a concrete over-age legacy record in a pure
old-format tree. -/
theorem C2_expiry_filter_and_sweeps_witness :
    ¬ flatEntry (deleteExpiredPassRequests (threeDaysMs + 1)
      [("idB", Child.req legacyFlatReq)]) "idB" legacyFlatReq :=
  ((C2_expiry_filter_and_sweeps (threeDaysMs + 1) 0 legacyFlatReq [] []
    "idB" "ec" "u" "idB" (Child.req legacyFlatReq) [] rfl).2.2.1
    (by decide) (by decide)).1

/-- Counterexample to C8 as stated: at the exact instant `now = expiresAt`
the badge already reports "Expired" although `now > expiresAt` is false;
and the HOD dashboard badge is computed from `createdAt`, not from
`expiresAt` via `getTimeUntilPassExpiry`, even for a `warden_approved`
request. -/
theorem C8_counterexample :
    grantedReq.status = .warden_approved ∧
    grantedReq.expiresAt = some 5000 ∧
    (sectionExpiryBadge 5000 grantedReq).isExpired = true ∧
    ¬((5000 : Int) > 5000) ∧
    longGrantedReq.status = .warden_approved ∧
    hodExpiryBadge (4 * oneDayMs) longGrantedReq ≠
      getTimeUntilPassExpiry (4 * oneDayMs) longGrantedReq.expiresAt := by
  decide

/-- C8 (amended): for a `warden_approved` request with `expiresAt` set, the
warden and student dashboard badges compute the displayed expiry from
`expiresAt` via `getTimeUntilPassExpiry` (the HOD dashboard badge still
uses `createdAt`), and that display reports "expired" exactly when
`now ≥ expiresAt`; actual deletion of such a request still follows only the
3-day rule from `createdAt`, never `expiresAt`. -/
theorem C8_granted_pass_expiry_display
    (now e c : Int) (r : PassRequest) (s : Store) (u id : String)
    (hst : r.status = .warden_approved) (he : r.expiresAt = some e) :
    sectionExpiryBadge now r = getTimeUntilPassExpiry now r.expiresAt ∧
    ((getTimeUntilPassExpiry now r.expiresAt).isExpired = true ↔ now ≥ e) ∧
    (r.createdAt = some c → ¬(now - c > threeDaysMs) →
      (nestedEntry s u id r →
        nestedEntry (deleteExpiredPassRequests now s) u id r) ∧
      (flatEntry s id r →
        flatEntry (deleteExpiredPassRequests now s) id r)) := by
  refine ⟨?_, ?_, ?_⟩
  · unfold sectionExpiryBadge
    rw [if_pos (by simp [hst, he])]
  · rw [he]
    unfold getTimeUntilPassExpiry
    dsimp only
    by_cases hle : e - now ≤ 0
    · rw [if_pos hle]
      simp only [true_iff]
      omega
    · rw [if_neg hle]
      by_cases hh : e.toNat - now.toNat > 0
      · constructor
        · intro hfalse
          by_cases hhrs : (e - now).toNat / (60 * 60 * 1000) > 0
          · rw [if_pos hhrs] at hfalse; exact absurd hfalse (by simp)
          · rw [if_neg hhrs] at hfalse; exact absurd hfalse (by simp)
        · intro hge; omega
      · constructor
        · intro hfalse
          by_cases hhrs : (e - now).toNat / (60 * 60 * 1000) > 0
          · rw [if_pos hhrs] at hfalse; exact absurd hfalse (by simp)
          · rw [if_neg hhrs] at hfalse; exact absurd hfalse (by simp)
        · intro hge; omega
  · intro hc hfresh
    have hexp : isExpired now r.createdAt = false := by
      rw [hc]; exact decide_eq_false hfresh
    have hkeep : (r.createdAt.isSome && isExpired now r.createdAt) = false := by
      simp [hexp]
    exact ⟨nestedEntry_preserved_delete hkeep,
      flatEntry_preserved_delete hkeep⟩

/-- Witness for C8 at a concrete granted pass before its window ends. -/
theorem C8_granted_pass_expiry_display_witness :
    sectionExpiryBadge 0 grantedReq = getTimeUntilPassExpiry 0 grantedReq.expiresAt ∧
    ¬((getTimeUntilPassExpiry 0 grantedReq.expiresAt).isExpired = true) :=
  let h := C8_granted_pass_expiry_display 0 5000 0 grantedReq [] "u" "i" rfl rfl
  ⟨h.1, fun he => absurd (h.2.1.mp he) (by decide)⟩

theorem nestedEntry_storeInsertNested (s : Store) (u id : String)
    (r : PassRequest) : nestedEntry (storeInsertNested s u id r) u id r := by
  unfold storeInsertNested
  cases hc : lookupChild s u with
  | none => exact ⟨[(id, r)], by simp, by simp⟩
  | some c =>
    cases c with
    | bucket b =>
      obtain ⟨p, hfind, hsnd⟩ := Option.map_eq_some'.mp hc
      have hkey : p.1 = u := by
        have := List.find?_some hfind
        simpa using this
      have hpmem := List.mem_of_find?_eq_some hfind
      refine ⟨b ++ [(id, r)], ?_, by simp⟩
      refine List.mem_map.mpr ⟨p, hpmem, ?_⟩
      obtain ⟨k', c'⟩ := p
      simp only at hsnd
      subst hsnd
      simp only at hkey
      simp [hkey]
    | req q =>
      obtain ⟨p, hfind, hsnd⟩ := Option.map_eq_some'.mp hc
      have hkey : p.1 = u := by
        have := List.find?_some hfind
        simpa using this
      have hpmem := List.mem_of_find?_eq_some hfind
      refine ⟨[(id, r)], ?_, by simp⟩
      refine List.mem_map.mpr ⟨p, hpmem, ?_⟩
      obtain ⟨k', c'⟩ := p
      simp only at hkey
      simp [hkey]

/-- C5: `getAssignedWardenByBlock` returns the first warden record in
iteration order whose stored `block` equals the submitted block exactly,
and `null` exactly when no record matches; `getAssignedHodByDepartment`
maps the upper-cased department through the fixed many-to-one static table
and returns `null` for an unmapped department; and when both resolvers
return `null`, `savePassRequest` still saves the request with the
`assignedWarden` / `assignedHod` fields null. -/
theorem C5_assignment_resolvers :
    (∀ (ws : List Warden) (blk : String) (w : WardenRef),
      getAssignedWardenByBlock ws blk = some w →
      ∃ pre x post, ws = pre ++ x :: post ∧ x.block = blk ∧
        (∀ y ∈ pre, y.block ≠ blk) ∧ w = mkWardenRef x) ∧
    (∀ (ws : List Warden) (blk : String),
      getAssignedWardenByBlock ws blk = none ↔ ∀ x ∈ ws, x.block ≠ blk) ∧
    (departmentToHodMapping "AIDS" = some "HOD006" ∧
      departmentToHodMapping "AIML" = some "HOD006" ∧
      departmentToHodMapping "CYBER SECURITY" = some "HOD006" ∧
      departmentToHodMapping "CSE" = some "HOD006" ∧
      departmentToHodMapping "IT" = some "HOD006" ∧
      departmentToHodMapping "ECE" = some "HOD001" ∧
      departmentToHodMapping "CIVIL" = some "HOD003" ∧
      departmentToHodMapping "EEE" = some "HOD002" ∧
      departmentToHodMapping "MECH" = some "HOD004") ∧
    (∀ (hods : List (String × Hod)) (d : String),
      departmentToHodMapping (jsToUpperCase d) = none →
      getAssignedHodByDepartment hods d = none) ∧
    (∀ (ws : List Warden) (hods : List (String × Hod))
      (recent : List (String × Int)) (now : Int) (s : Store)
      (newId : String) (rd : PassRequestData),
      rd.emp_code ≠ "" → duplicateBlocked recent rd now = false →
      getAssignedWardenByBlock ws rd.block = none →
      getAssignedHodByDepartment hods rd.department = none →
      ∃ recent' store' saved,
        savePassRequest ws hods recent now s newId rd =
          .ok (recent', store', saved) ∧
        saved.assignedWarden = none ∧ saved.assignedHod = none ∧
        saved.status = .pending ∧
        nestedEntry store' (sanitizeEmpCode rd.emp_code) newId saved) := by
  refine ⟨?_, ?_, by decide, ?_, ?_⟩
  · intro ws blk w h
    unfold getAssignedWardenByBlock at h
    obtain ⟨x, hfind, hx⟩ := Option.map_eq_some'.mp h
    obtain ⟨hpx, pre, post, hsplit, hpre⟩ := List.find?_eq_some.mp hfind
    refine ⟨pre, x, post, hsplit, by simpa using hpx, ?_, hx.symm⟩
    intro y hy
    have := hpre y hy
    simpa using this
  · intro ws blk
    unfold getAssignedWardenByBlock
    rw [Option.map_eq_none']
    rw [List.find?_eq_none]
    constructor
    · intro h x hx
      have := h x hx
      simpa using this
    · intro h x hx
      simpa using h x hx
  · intro hods d h
    unfold getAssignedHodByDepartment
    rw [h]
  · intro ws hods recent now s newId rd hne hdup hw hh
    unfold savePassRequest
    rw [if_neg hne, if_neg (by simp [hdup])]
    refine ⟨_, _, _, rfl, ?_, ?_, rfl, ?_⟩
    · show (if rd.block ≠ "" then getAssignedWardenByBlock ws rd.block
        else none) = none
      split_ifs with hb
      · exact hw
      · rfl
    · show (if rd.type = .home_visit ∧ rd.department ≠ "" then
          getAssignedHodByDepartment hods rd.department else none) = none
      split_ifs with hb
      · exact hh
      · rfl
    · exact nestedEntry_storeInsertNested s (sanitizeEmpCode rd.emp_code)
        newId _

/-- Witness for C5: a concrete submission with an unmatched block and an
unmapped department is still saved, unassigned. -/
theorem C5_assignment_resolvers_witness :
    ∃ recent' store' saved,
      savePassRequest [] [] [] 0 [] "nid" unassignedData =
        .ok (recent', store', saved) ∧
      saved.assignedWarden = none ∧ saved.assignedHod = none ∧
      saved.status = .pending ∧
      nestedEntry store' (sanitizeEmpCode unassignedData.emp_code) "nid" saved :=
  C5_assignment_resolvers.2.2.2.2 [] [] [] 0 [] "nid" unassignedData
    (by decide) (by decide) (by decide) (by decide)

/-- Counterexample to C4 as stated: in a tree holding a fresh request for
user `u1` in each layout, `fetchUserPassRequests` for `u1` misses the flat
legacy record — the read paths do not merge the two layouts. -/
theorem C4_counterexample :
    flatEntry dualLayoutStore "idB" otherFlatReq ∧
    otherFlatReq.emp_code = "u1" ∧
    isExpired 100 otherFlatReq.createdAt = false ∧
    otherFlatReq ∉ fetchUserPassRequests 100 dualLayoutStore "u1" := by
  decide

/-- C4 (amended): `fetchUserPassRequests` consults the nested layout first
and, when the user's node exists, returns only its (non-expired) records,
falling back to an `emp_code` scan of the flat layout only when the node
is absent; `fetchAllPassRequests` reads the root once and interprets the
whole tree as the single layout chosen by the format heuristic on its
first child.  No read path merges the two layouts. -/
theorem C4_read_paths_fallback_not_merge :
    (∀ (now : Int) (s : Store) (ec : String) (r : PassRequest),
      r ∈ fetchUserPassRequests now s ec →
        isExpired now r.createdAt = false ∧
        ((∃ b, lookupChild s ec = some (.bucket b) ∧ ∃ id, (id, r) ∈ b) ∨
         (lookupChild s ec = none ∧ r.emp_code = ec ∧ ∃ id, flatEntry s id r))) ∧
    (∀ (now : Int) (s : Store) (ec : String) (b : List (String × PassRequest))
      (id : String) (r : PassRequest),
      lookupChild s ec = some (.bucket b) → (id, r) ∈ b →
      isExpired now r.createdAt = false →
      r ∈ fetchUserPassRequests now s ec) ∧
    (∀ (now : Int) (s : Store) (ec id : String) (r : PassRequest),
      lookupChild s ec = none → flatEntry s id r → r.emp_code = ec →
      isExpired now r.createdAt = false →
      r ∈ fetchUserPassRequests now s ec) ∧
    (∀ (now : Int) (k : String) (ch : Child) (rest : List (String × Child))
      (r : PassRequest),
      childIsNewFormat ch = true →
      r ∈ fetchAllPassRequests now ((k, ch) :: rest) →
      ∃ u id, nestedEntry ((k, ch) :: rest) u id r) ∧
    (∀ (now : Int) (k : String) (ch : Child) (rest : List (String × Child))
      (r : PassRequest),
      childIsNewFormat ch = false →
      r ∈ fetchAllPassRequests now ((k, ch) :: rest) →
      ∃ id, flatEntry ((k, ch) :: rest) id r) := by
  refine ⟨?_, ?_, ?_, ?_, ?_⟩
  · intro now s ec r h
    unfold fetchUserPassRequests at h
    cases hc : lookupChild s ec with
    | none =>
      rw [hc] at h
      obtain ⟨hmem, hexp⟩ := mem_filterOutExpiredRequests.mp h
      obtain ⟨p, hp, hfp⟩ := List.mem_filterMap.mp hmem
      obtain ⟨k', c'⟩ := p
      cases c' with
      | bucket b => exact absurd hfp (by simp)
      | req q =>
        simp only at hfp
        by_cases hq : q.emp_code = ec
        · rw [if_pos hq] at hfp
          obtain rfl : q = r := by injection hfp
          exact ⟨hexp, Or.inr ⟨rfl, hq, k', hp⟩⟩
        · rw [if_neg hq] at hfp
          exact absurd hfp (by simp)
    | some c =>
      cases c with
      | bucket b =>
        rw [hc] at h
        obtain ⟨hmem, hexp⟩ := mem_filterOutExpiredRequests.mp h
        obtain ⟨p, hp, hfp⟩ := List.mem_map.mp hmem
        refine ⟨hexp, Or.inl ⟨b, rfl, p.1, ?_⟩⟩
        rw [← hfp, Prod.mk.eta]
        exact hp
      | req q =>
        rw [hc] at h
        exact absurd h (List.not_mem_nil r)
  · intro now s ec b id r hc hmem hexp
    unfold fetchUserPassRequests
    rw [hc]
    exact mem_filterOutExpiredRequests.mpr
      ⟨List.mem_map.mpr ⟨(id, r), hmem, rfl⟩, hexp⟩
  · intro now s ec id r hc hflat hq hexp
    unfold fetchUserPassRequests
    rw [hc]
    refine mem_filterOutExpiredRequests.mpr ⟨?_, hexp⟩
    exact List.mem_filterMap.mpr ⟨(id, Child.req r), hflat, by simp [hq]⟩
  · intro now k ch rest r hcf h
    rw [fetchAllPassRequests_cons, if_pos hcf] at h
    obtain ⟨hmem, hexp⟩ := mem_filterOutExpiredRequests.mp h
    obtain ⟨p, hp, hfp⟩ := List.mem_flatMap.mp hmem
    obtain ⟨k', c'⟩ := p
    cases c' with
    | req q => exact absurd hfp (by simp)
    | bucket b =>
      simp only at hfp
      obtain ⟨q, hq, hqr⟩ := List.mem_map.mp hfp
      refine ⟨k', q.1, b, hp, ?_⟩
      rw [← hqr, Prod.mk.eta]
      exact hq
  · intro now k ch rest r hcf h
    rw [fetchAllPassRequests_cons, if_neg (by simp [hcf])] at h
    obtain ⟨hmem, hexp⟩ := mem_filterOutExpiredRequests.mp h
    obtain ⟨p, hp, hfp⟩ := List.mem_filterMap.mp hmem
    obtain ⟨k', c'⟩ := p
    cases c' with
    | bucket b => exact absurd hfp (by simp)
    | req q =>
      obtain rfl : q = r := by injection hfp
      exact ⟨k', hp⟩

/-- Witness for C4 at the concrete dual-layout tree. -/
theorem C4_read_paths_fallback_not_merge_witness :
    ({ aRequest with id := "idA", emp_code := "u1" } : PassRequest) ∈
      fetchUserPassRequests 100 dualLayoutStore "u1" :=
  C4_read_paths_fallback_not_merge.2.1 100 dualLayoutStore "u1"
    [("idA", { aRequest with id := "idA", emp_code := "u1" })] "idA"
    { aRequest with id := "idA", emp_code := "u1" }
    (by decide) (by decide) (by decide)

theorem assocSet_key_entries (l : List (String × Int)) (k : String) (v : Int) :
    ∀ p ∈ assocSet l k v, p.1 = k → p = (k, v) := by
  intro p hp hpk
  unfold assocSet at hp
  by_cases hfind : (l.find? (fun p => p.1 = k)).isSome
  · rw [if_pos hfind] at hp
    obtain ⟨p0, hp0, hfp⟩ := List.mem_map.mp hp
    by_cases h0 : p0.1 = k
    · rw [if_pos h0] at hfp
      exact hfp.symm
    · rw [if_neg h0] at hfp
      exact absurd (hfp ▸ hpk) h0
  · rw [if_neg hfind] at hp
    rcases List.mem_append.mp hp with hl | hr
    · have hnone : l.find? (fun p => p.1 = k) = none :=
        Option.not_isSome_iff_eq_none.mp hfind
      have := List.find?_eq_none.mp hnone p hl
      simp [hpk] at this
    · simpa using hr

theorem assocSet_key_exists (l : List (String × Int)) (k : String) (v : Int) :
    ∃ p ∈ assocSet l k v, p.1 = k := by
  unfold assocSet
  by_cases hfind : (l.find? (fun p => p.1 = k)).isSome
  · rw [if_pos hfind]
    obtain ⟨p0, hp0⟩ := Option.isSome_iff_exists.mp hfind
    have hmem := List.mem_of_find?_eq_some hp0
    have hk0 : p0.1 = k := by simpa using List.find?_some hp0
    exact ⟨(k, v), List.mem_map.mpr ⟨p0, hmem, by simp [hk0]⟩, rfl⟩
  · rw [if_neg hfind]
    exact ⟨(k, v), by simp, rfl⟩

theorem lookupAssoc_filter_of_uniq (L : List (String × Int)) (k : String)
    (v : Int) (q : String × Int → Bool)
    (hall : ∀ p ∈ L, p.1 = k → p = (k, v))
    (hex : ∃ p ∈ L, p.1 = k) (hq : q (k, v) = true) :
    lookupAssoc (L.filter q) k = some v := by
  revert hall hex
  induction L with
  | nil =>
    intro hall hex
    obtain ⟨p, hp, _⟩ := hex
    exact absurd hp (List.not_mem_nil p)
  | cons a L ih =>
    intro hall hex
    by_cases hak : a.1 = k
    · have ha : a = (k, v) := hall a (by simp) hak
      subst ha
      rw [List.filter_cons_of_pos hq]
      unfold lookupAssoc
      rw [List.find?_cons_of_pos _ (by simp)]
      rfl
    · have hall' : ∀ p ∈ L, p.1 = k → p = (k, v) := fun p hp =>
        hall p (List.mem_cons_of_mem a hp)
      have hex' : ∃ p ∈ L, p.1 = k := by
        obtain ⟨p, hp, hpk⟩ := hex
        rcases List.mem_cons.mp hp with rfl | hp'
        · exact absurd hpk hak
        · exact ⟨p, hp', hpk⟩
      by_cases hqa : q a = true
      · rw [List.filter_cons_of_pos hqa]
        unfold lookupAssoc at ih ⊢
        rw [List.find?_cons_of_neg _ (by simpa using hak)]
        exact ih hall' hex'
      · rw [List.filter_cons_of_neg (by simpa using hqa)]
        exact ih hall' hex'

/-- Counterexample to C7 as stated: a submission with an empty employee
code makes `savePassRequest` throw and save nothing even though no earlier
submission with its signature exists. -/
theorem C7_counterexample :
    savePassRequest [] [] [] 1000 [] "nid" noEmpCodeData =
      .error "Employee code is required to save pass request" ∧
    duplicateBlocked [] noEmpCodeData 1000 = false :=
  ⟨rfl, by decide⟩

/-- C7 (amended): `savePassRequest` throws and writes nothing exactly when
the employee code is empty or a previous submission with the same
signature — sanitized requester id, type, date, first 50 characters of the
reason — is recorded less than 5 seconds ago; otherwise it records the
signature's timestamp and saves the request under the sanitized path. -/
theorem C7_duplicate_guard (ws : List Warden) (hods : List (String × Hod))
    (recent : List (String × Int)) (now : Int) (s : Store) (newId : String)
    (rd : PassRequestData) :
    ((∃ e, savePassRequest ws hods recent now s newId rd = .error e) ↔
      (rd.emp_code = "" ∨ duplicateBlocked recent rd now = true)) ∧
    (duplicateBlocked recent rd now = true ↔
      ∃ last, lookupAssoc recent (requestSignature rd) = some last ∧
        now - last < DUPLICATE_PREVENTION_WINDOW) ∧
    (rd.emp_code ≠ "" → duplicateBlocked recent rd now = false →
      ∃ recent' store' saved,
        savePassRequest ws hods recent now s newId rd =
          .ok (recent', store', saved) ∧
        lookupAssoc recent' (requestSignature rd) = some now ∧
        nestedEntry store' (sanitizeEmpCode rd.emp_code) newId saved) := by
  refine ⟨?_, ?_, ?_⟩
  · constructor
    · rintro ⟨e, he⟩
      by_cases h1 : rd.emp_code = ""
      · exact Or.inl h1
      right
      by_cases h2 : duplicateBlocked recent rd now = true
      · exact h2
      exfalso
      unfold savePassRequest at he
      rw [if_neg h1, if_neg h2] at he
      exact Except.noConfusion he
    · intro h
      rcases h with h1 | h2
      · exact ⟨_, by unfold savePassRequest; rw [if_pos h1]⟩
      · by_cases h1 : rd.emp_code = ""
        · exact ⟨_, by unfold savePassRequest; rw [if_pos h1]⟩
        · exact ⟨_, by unfold savePassRequest; rw [if_neg h1, if_pos h2]⟩
  · unfold duplicateBlocked
    cases hl : lookupAssoc recent (requestSignature rd) with
    | none => simp
    | some last => simp
  · intro hne hdup
    unfold savePassRequest
    rw [if_neg hne, if_neg (by simp [hdup])]
    refine ⟨_, _, _, rfl, ?_, ?_⟩
    · refine lookupAssoc_filter_of_uniq _ _ _ _
        (assocSet_key_entries recent (requestSignature rd) now)
        (assocSet_key_exists recent (requestSignature rd) now) ?_
      have h0 : now - now = 0 := by omega
      simp [h0, DUPLICATE_PREVENTION_WINDOW]
    · exact nestedEntry_storeInsertNested s (sanitizeEmpCode rd.emp_code)
        newId _

/-- Witness for C7 at a concrete fresh submission. -/
theorem C7_duplicate_guard_witness :
    ∃ recent' store' saved,
      savePassRequest [] [] [] 3 [] "nid2" unassignedData =
        .ok (recent', store', saved) ∧
      lookupAssoc recent' (requestSignature unassignedData) = some 3 ∧
      nestedEntry store' (sanitizeEmpCode unassignedData.emp_code) "nid2" saved :=
  (C7_duplicate_guard [] [] [] 3 [] "nid2" unassignedData).2.2
    (by decide) (by decide)

theorem charList_map_eq_self {l : List Char} {f : Char → Char} :
    l.map f = l ↔ ∀ c ∈ l, f c = c := by
  induction l with
  | nil => simp
  | cons a l ih =>
    simp only [List.map_cons, List.cons.injEq, List.mem_cons]
    constructor
    · rintro ⟨ha, hl⟩
      intro c hc
      rcases hc with rfl | hc
      · exact ha
      · exact ih.mp hl c hc
    · intro h
      exact ⟨h a (Or.inl rfl), ih.mpr fun c hc => h c (Or.inr hc)⟩

theorem sanitizeChar_eq_self {c : Char} :
    sanitizeChar c = c ↔ c ∉ specialChars := by
  unfold sanitizeChar
  by_cases hc : c ∈ specialChars
  · rw [if_pos hc]
    constructor
    · intro h
      rw [← h] at hc
      exact absurd hc (by decide)
    · intro h
      exact absurd hc h
  · rw [if_neg hc]
    simp [hc]

theorem status_applyWardenUpdateData (st : Status) (u : WardenRef)
    (now : Int) (q : PassRequest) :
    (applyWardenUpdateData st u now q).status = st := by
  unfold applyWardenUpdateData
  split_ifs <;> rfl

theorem status_applyHodUpdateData (st : Status) (u : HodRef)
    (q : PassRequest) : (applyHodUpdateData st u q).status = st := by
  unfold applyHodUpdateData
  split_ifs <;> rfl

theorem flatEntry_flatUpdateOrCreate (s : Store) (id : String)
    (f : PassRequest → PassRequest)
    (hnb : ∀ b, lookupChild s id ≠ some (.bucket b)) :
    ∃ q, flatEntry (flatUpdateOrCreate s id f) id (f q) := by
  unfold flatUpdateOrCreate
  cases hc : lookupChild s id with
  | none => exact ⟨blankRequest, by simp⟩
  | some c =>
    cases c with
    | bucket b => exact absurd hc (hnb b)
    | req q =>
      obtain ⟨p, hfind, hsnd⟩ := Option.map_eq_some'.mp hc
      have hkey : p.1 = id := by simpa using List.find?_some hfind
      have hpmem := List.mem_of_find?_eq_some hfind
      refine ⟨q, List.mem_map.mpr ⟨p, hpmem, ?_⟩⟩
      obtain ⟨k', c'⟩ := p
      simp only at hsnd hkey
      subst hsnd
      simp [hkey]

theorem flatEntry_setNested_preserved (s : Store) (user id0 : String)
    (q0 : PassRequest) {id : String} {r : PassRequest} (hne : id ≠ user)
    (h : flatEntry s id r) : flatEntry (setNested s user id0 q0) id r := by
  unfold setNested
  cases hc : lookupChild s user with
  | none => exact List.mem_append_left _ h
  | some c =>
    cases c with
    | bucket b =>
      exact List.mem_map.mpr ⟨(id, Child.req r), h, rfl⟩
    | req q =>
      refine List.mem_map.mpr ⟨(id, Child.req r), h, ?_⟩
      simp [hne]

/-- C10: `savePassRequest` writes under the sanitized employee code while
the warden/HOD status updates address the nested path with the raw
`emp_code` stored in the request; the two paths coincide exactly when the
employee code contains none of `. # $ [ ]`, and for an employee code
containing one of them the update does not find the record at the
new-format path and falls back to writing an old-format entry carrying the
new status. -/
theorem C10_sanitized_save_vs_raw_update :
    (∀ ec : String, sanitizeEmpCode ec = ec ↔ ∀ c ∈ ec.data, c ∉ specialChars) ∧
    (∀ (s : Store) (r : PassRequest) (st : Status) (u : WardenRef)
      (u' : HodRef) (now : Int),
      (∃ c ∈ r.emp_code.data, c ∈ specialChars) →
      (∀ p ∈ s, ∀ c ∈ (Prod.fst p).data, c ∉ specialChars) →
      (∀ b, lookupChild s r.id ≠ some (.bucket b)) →
      (∀ c ∈ r.id.data, c ∉ specialChars) →
      nestedExists s r.emp_code r.id = false ∧
      wardenUpdateRequestStatus s r st u now =
        flatUpdateOrCreate s r.id (applyWardenUpdateData st u now) ∧
      (∃ q, flatEntry (wardenUpdateRequestStatus s r st u now) r.id q ∧
        q.status = st) ∧
      (∃ q, flatEntry (hodUpdateRequestStatus s r st u') r.id q ∧
        q.status = st)) := by
  constructor
  · intro ec
    unfold sanitizeEmpCode
    constructor
    · intro h c hc
      have hdata : ec.data.map sanitizeChar = ec.data := by
        have := congrArg String.data h
        simpa using this
      exact sanitizeChar_eq_self.mp (charList_map_eq_self.mp hdata c hc)
    · intro h
      have hdata : ec.data.map sanitizeChar = ec.data :=
        charList_map_eq_self.mpr fun c hc => sanitizeChar_eq_self.mpr (h c hc)
      cases ec
      simpa using congrArg String.mk hdata
  · intro s r st u u' now hspec hkeys hnb hidns
    have hlook : lookupChild s r.emp_code = none := by
      unfold lookupChild
      rw [Option.map_eq_none']
      rw [List.find?_eq_none]
      intro p hp hpk
      obtain ⟨c, hc, hcs⟩ := hspec
      have hpk' : p.1 = r.emp_code := by simpa using hpk
      have := hkeys p hp c (by rw [hpk']; exact hc)
      exact this hcs
    have hnest : nestedExists s r.emp_code r.id = false := by
      unfold nestedExists
      rw [hlook]
    have hne : r.emp_code ≠ "" := by
      intro h
      obtain ⟨c, hc, _⟩ := hspec
      rw [h] at hc
      exact absurd hc (List.not_mem_nil c)
    have hid : r.id ≠ r.emp_code := by
      intro h
      obtain ⟨c, hc, hcs⟩ := hspec
      exact hidns c (by rw [h]; exact hc) hcs
    have hwredc : wardenUpdateRequestStatus s r st u now =
        flatUpdateOrCreate s r.id (applyWardenUpdateData st u now) := by
      unfold wardenUpdateRequestStatus
      rw [if_neg (by simp [hnest])]
    refine ⟨hnest, hwredc, ?_, ?_⟩
    · obtain ⟨q, hq⟩ := flatEntry_flatUpdateOrCreate s r.id
        (applyWardenUpdateData st u now) hnb
      exact ⟨_, hwredc ▸ hq, status_applyWardenUpdateData st u now q⟩
    · obtain ⟨q, hq⟩ := flatEntry_flatUpdateOrCreate s r.id
        (applyHodUpdateData st u') hnb
      refine ⟨applyHodUpdateData st u' q, ?_, status_applyHodUpdateData st u' q⟩
      unfold hodUpdateRequestStatus
      rw [if_neg (by simp [hnest])]
      dsimp only
      rw [if_pos hne]
      cases hcl : lookupChild (flatUpdateOrCreate s r.id
          (applyHodUpdateData st u')) r.id with
      | none => exact hq
      | some c =>
        cases c with
        | bucket b => exact hq
        | req full => exact flatEntry_setNested_preserved _ _ _ _ hid hq

/-- Witness for C10 at a concrete request whose employee code contains a
dot. -/
theorem C10_sanitized_save_vs_raw_update_witness :
    ∃ q, flatEntry (wardenUpdateRequestStatus []
      { aRequest with emp_code := "a.b" } .declined aWarden 0)
      ({ aRequest with emp_code := "a.b" } : PassRequest).id q ∧
      q.status = .declined :=
  ((C10_sanitized_save_vs_raw_update.2 [] { aRequest with emp_code := "a.b" }
    .declined aWarden aHod 0 ⟨'.', by decide, by decide⟩
    (by intro p hp; exact absurd hp (List.not_mem_nil p))
    (by intro b h; exact Option.noConfusion h)
    (by decide)).2.2).1

end PassPortal
